import Mathlib

/-!
The esp_modem Terminal interface.

A shallow embedding of `components/esp_modem/include/cxx_include/esp_modem_terminal.hpp`.

The header declares the enumeration `terminal_error` and the abstract class `Terminal`.
The class stores two `std::function` slots (`on_read`, `on_error`) and implements two
setters; `write`, `read`, `start` and `stop` are pure virtual and have no body in the
header.  Definitions that stand for those bodies are modelled from the specification and
are marked as such in their doc comments.

Conventions of the embedding:
* a `std::function<...>` object is either empty or holds a callable target, so it is an
  `Option` of the target; the type of targets is a parameter (`R` for read callbacks of
  shape `(uint8_t*, size_t) → bool`, `E` for error callbacks of shape
  `(terminal_error) → void`), which keeps the identity of a callback observable even
  though invoking it has side effects outside the Terminal;
* a member function returning `void` becomes a function from the object state to the new
  object state;
* a byte buffer `(uint8_t *data, size_t len)` is a `List Nat` together with a `Nat`.
-/

namespace esp_modem

variable {R E : Type}

/-! ## Definitions translated from the header -/

/-- A value of `enum class terminal_error`.  A scoped enumeration without an enum-base has
the fixed underlying type `int`, and its values are all the values of that type: besides
the four enumerators, `static_cast<terminal_error>(n)` is a well-defined value for every
`int` n.  A value is therefore given by its underlying 32-bit integer. -/
structure terminal_error where
  underlying : Int
  in_range : -2147483648 ≤ underlying ∧ underlying ≤ 2147483647
  deriving DecidableEq, Repr

/-- The first enumerator; C++ numbers the enumerators from 0 in declaration order. -/
def terminal_error.BUFFER_OVERFLOW : terminal_error :=
  { underlying := 0, in_range := by decide }

/-- The second enumerator. -/
def terminal_error.CHECKSUM_ERROR : terminal_error :=
  { underlying := 1, in_range := by decide }

/-- The third enumerator. -/
def terminal_error.UNEXPECTED_CONTROL_FLOW : terminal_error :=
  { underlying := 2, in_range := by decide }

/-- The fourth and last enumerator. -/
def terminal_error.DEVICE_GONE : terminal_error :=
  { underlying := 3, in_range := by decide }

/-- The conversion `static_cast<terminal_error>(n)` of an `int` n. -/
def terminal_error.static_cast (n : Int) (h : -2147483648 ≤ n ∧ n ≤ 2147483647) :
    terminal_error :=
  { underlying := n, in_range := h }

/-- A `std::function` object: `none` is the empty state, `some f` holds the target `f`. -/
abbrev std_function (T : Type) := Option T

/-- The data members of `class Terminal`: the two protected callback slots. -/
structure Terminal (R E : Type) where
  on_read : std_function R
  on_error : std_function E
  deriving DecidableEq, Repr

/-- The implicitly defined default constructor: both members are default-constructed
`std::function` objects, which are empty. -/
def Terminal.fresh : Terminal R E :=
  { on_read := none, on_error := none }

/-- `void set_error_cb(std::function<void(terminal_error)> f) { on_error = std::move(f); }` -/
def Terminal.set_error_cb (f : std_function E) (t : Terminal R E) : Terminal R E :=
  { t with on_error := f }

/-- The base body of
`virtual void set_read_cb(std::function<bool(uint8_t *data, size_t len)> f) { on_read = std::move(f); }` -/
def Terminal.set_read_cb (f : std_function R) (t : Terminal R E) : Terminal R E :=
  { t with on_read := f }

/-! ## Sequences of registrations -/

/-- One call of a setter, with its argument. -/
inductive SetCall (R E : Type) where
  | read (f : std_function R)
  | error (f : std_function E)
  deriving DecidableEq, Repr

/-- Performs one setter call on the object. -/
def SetCall.apply : SetCall R E → Terminal R E → Terminal R E
  | .read f, t => t.set_read_cb f
  | .error f, t => t.set_error_cb f

/-- Performs the calls of `cs` from left to right. -/
def Terminal.run_calls (cs : List (SetCall R E)) (t : Terminal R E) : Terminal R E :=
  cs.foldl (fun acc c => c.apply acc) t

/-- The argument of a call when it is a `set_read_cb`. -/
def SetCall.read_arg : SetCall R E → Option (std_function R)
  | .read f => some f
  | .error _ => none

/-- The argument of a call when it is a `set_error_cb`. -/
def SetCall.error_arg : SetCall R E → Option (std_function E)
  | .read _ => none
  | .error f => some f

/-- The argument of the last `set_read_cb` of the sequence, if there is one. -/
def last_read_arg (cs : List (SetCall R E)) : Option (std_function R) :=
  (cs.filterMap SetCall.read_arg).getLast?

/-- The argument of the last `set_error_cb` of the sequence, if there is one. -/
def last_error_arg (cs : List (SetCall R E)) : Option (std_function E) :=
  (cs.filterMap SetCall.error_arg).getLast?

/-! ## Notification through the slots -/

/-- One invocation of a callback target, with the arguments it receives. -/
inductive Invocation (R E : Type) where
  | read (target : R) (data : List Nat) (len : Nat)
  | error (target : E) (e : terminal_error)
  deriving DecidableEq, Repr

/-- Modelled from the spec: the header holds no code that invokes `on_read` (the concrete
transports do).  Section 6: the Terminal invokes "the registered read callback with
(buffer pointer, length) whenever new bytes are available".  The result lists the
invocations made: the target held by the slot, or nothing when the slot is empty. -/
def Terminal.notify_read (t : Terminal R E) (data : List Nat) : List (Invocation R E) :=
  match t.on_read with
  | none => []
  | some f => [Invocation.read f data data.length]

/-- Modelled from the spec: the header holds no code that invokes `on_error`.  Section 6:
the Terminal invokes "the registered error callback with a `terminal_error` value whenever
a fault is detected". -/
def Terminal.notify_error (t : Terminal R E) (e : terminal_error) : List (Invocation R E) :=
  match t.on_error with
  | none => []
  | some f => [Invocation.error f e]

/-! ## Lifecycle (pure virtual `start` / `stop`) -/

/-- Modelled from the spec: the states of section 4.1, "states {Constructed, Active,
Stopped}"; the header declares `start` and `stop` pure virtual and stores no state. -/
inductive Lifecycle where
  | Constructed
  | Active
  | Stopped
  deriving DecidableEq, Repr

/-- Modelled from the spec: `start()` is pure virtual in the header.  "Constructed → Active
via `start()`", "Stopped → Active via `start()` again", and "must be idempotent if called
while already active". -/
def Lifecycle.start : Lifecycle → Lifecycle
  | _ => Lifecycle.Active

/-- Modelled from the spec: `stop()` is pure virtual in the header.  "Active → Stopped via
`stop()`" and "must be idempotent".  The spec lists no transition for `stop()` on a
Constructed terminal; the flag `keep` selects between the two quiescent outcomes (`true`:
it stays Constructed, `false`: it becomes Stopped). -/
def Lifecycle.stop (keep : Bool) : Lifecycle → Lifecycle
  | .Constructed => if keep then Lifecycle.Constructed else Lifecycle.Stopped
  | .Active => Lifecycle.Stopped
  | .Stopped => Lifecycle.Stopped

/-- A lifecycle call. -/
inductive LifecycleCall where
  | start
  | stop
  deriving DecidableEq, Repr

/-- Performs one lifecycle call. -/
def LifecycleCall.apply (keep : Bool) : LifecycleCall → Lifecycle → Lifecycle
  | .start, s => s.start
  | .stop, s => s.stop keep

/-- Performs the lifecycle calls of `cs` from left to right. -/
def Lifecycle.run (keep : Bool) (cs : List LifecycleCall) (s : Lifecycle) : Lifecycle :=
  cs.foldl (fun acc c => c.apply keep acc) s

/-- Modelled from the spec: a concrete Terminal variant, which the header does not contain:
the base-class slots together with the lifecycle state kept by the variant. -/
structure Channel (R E : Type) where
  base : Terminal R E
  state : Lifecycle
  deriving DecidableEq, Repr

/-- A variant as it is constructed: empty slots, state Constructed. -/
def Channel.fresh : Channel R E :=
  { base := Terminal.fresh, state := Lifecycle.Constructed }

/-- The base-class `set_error_cb` called on a variant: it runs the base body, which can
reach only the base members. -/
def Channel.set_error_cb (f : std_function E) (c : Channel R E) : Channel R E :=
  { c with base := c.base.set_error_cb f }

/-- The base-class `set_read_cb` called on a variant that does not override it. -/
def Channel.set_read_cb (f : std_function R) (c : Channel R E) : Channel R E :=
  { c with base := c.base.set_read_cb f }

/-- Modelled from the spec: `start()` of a variant; "Terminal state is independent of
callback registration", so the slots are kept. -/
def Channel.start (c : Channel R E) : Channel R E :=
  { c with state := c.state.start }

/-- Modelled from the spec: `stop()` of a variant; the slots are kept. -/
def Channel.stop (keep : Bool) (c : Channel R E) : Channel R E :=
  { c with state := c.state.stop keep }

/-- Something that happens to a variant: a call by the owning DTE, or an event injected by
the transport (received bytes, or a detected fault). -/
inductive Call (R E : Type) where
  | set_read_cb (f : std_function R)
  | set_error_cb (f : std_function E)
  | start
  | stop
  | rx (data : List Nat)
  | fault (e : terminal_error)
  deriving DecidableEq, Repr

/-- Modelled from the spec: event delivery of a variant, absent from the header.  Section 3:
"`start()` transitions it into an active state where read/error callbacks may fire;
`stop()` transitions it to quiescent, after which no further callback invocations may
occur until `start()` is called again".  A transport event reaches the slots only in state
Active.  The result is the new object and the invocations this step begins. -/
def Channel.step (keep : Bool) : Call R E → Channel R E → Channel R E × List (Invocation R E)
  | .set_read_cb f, c => (c.set_read_cb f, [])
  | .set_error_cb f, c => (c.set_error_cb f, [])
  | .start, c => (c.start, [])
  | .stop, c => (c.stop keep, [])
  | .rx data, c =>
      match c.state with
      | .Active => (c, c.base.notify_read data)
      | _ => (c, [])
  | .fault e, c =>
      match c.state with
      | .Active => (c, c.base.notify_error e)
      | _ => (c, [])

/-- Performs the steps of `cs` from left to right and collects the invocations in order. -/
def Channel.run (keep : Bool) : List (Call R E) → Channel R E → Channel R E × List (Invocation R E)
  | [], c => (c, [])
  | a :: cs, c =>
      let r := Channel.step keep a c
      let rest := Channel.run keep cs r.1
      (rest.1, r.2 ++ rest.2)

/-! ## Sending (pure virtual `write`) -/

/-- Modelled from the spec: `write` is pure virtual in the header, so the sending side of a
transport is modelled from section 4.1 and the scenario of section 8: a transport accepts
at most `chunk` bytes per attempt; `failure = some k` is a definitive send failure, which
`write` reports as the negative value `-(k+1)`; `wire` holds the bytes accepted so far. -/
structure Transport where
  chunk : Nat
  failure : Option Nat
  wire : List Nat
  deriving DecidableEq, Repr

/-- Modelled from the spec: `int write(uint8_t *data, size_t len)`, pure virtual in the
header.  "Returns the number of bytes actually accepted (may be less than `len`...);
returns a negative value only to signal a definitive send failure". -/
def Transport.write (tr : Transport) (data : List Nat) (len : Nat) : Int × Transport :=
  match tr.failure with
  | some k => (Int.negSucc k, tr)
  | none =>
      let n := min len tr.chunk
      ((n : Int), { tr with wire := tr.wire ++ data.take n })

/-! ## Auxiliary lemmas -/

theorem run_calls_concat (cs : List (SetCall R E)) (c : SetCall R E) (t : Terminal R E) :
    Terminal.run_calls (cs ++ [c]) t = c.apply (Terminal.run_calls cs t) := by
  simp [Terminal.run_calls, List.foldl_append]

theorem run_calls_on_read (cs : List (SetCall R E)) (t : Terminal R E) :
    (Terminal.run_calls cs t).on_read = (last_read_arg cs).getD t.on_read := by
  induction cs using List.reverseRecOn with
  | nil => simp [Terminal.run_calls, last_read_arg]
  | append_singleton cs c ih =>
    rw [run_calls_concat]
    cases c with
    | read f =>
      simp [SetCall.apply, Terminal.set_read_cb, last_read_arg, List.filterMap_append,
        SetCall.read_arg]
    | error f =>
      simpa [SetCall.apply, Terminal.set_error_cb, last_read_arg, List.filterMap_append,
        SetCall.read_arg] using ih

theorem run_calls_on_error (cs : List (SetCall R E)) (t : Terminal R E) :
    (Terminal.run_calls cs t).on_error = (last_error_arg cs).getD t.on_error := by
  induction cs using List.reverseRecOn with
  | nil => simp [Terminal.run_calls, last_error_arg]
  | append_singleton cs c ih =>
    rw [run_calls_concat]
    cases c with
    | read f =>
      simpa [SetCall.apply, Terminal.set_read_cb, last_error_arg, List.filterMap_append,
        SetCall.error_arg] using ih
    | error f =>
      simp [SetCall.apply, Terminal.set_error_cb, last_error_arg, List.filterMap_append,
        SetCall.error_arg]

theorem lifecycle_run_concat (keep : Bool) (cs : List LifecycleCall) (c : LifecycleCall)
    (s : Lifecycle) :
    Lifecycle.run keep (cs ++ [c]) s = c.apply keep (Lifecycle.run keep cs s) := by
  simp [Lifecycle.run, List.foldl_append]

theorem lifecycle_stop_ne_active (keep : Bool) (s : Lifecycle) :
    Lifecycle.stop keep s ≠ Lifecycle.Active := by
  cases s <;> cases keep <;> simp [Lifecycle.stop]

theorem step_quiet_of_not_active (keep : Bool) (a : Call R E) (c : Channel R E)
    (hs : c.state ≠ Lifecycle.Active) (ha : a ≠ Call.start) :
    (Channel.step keep a c).1.state ≠ Lifecycle.Active ∧ (Channel.step keep a c).2 = [] := by
  cases a with
  | set_read_cb f => exact ⟨hs, rfl⟩
  | set_error_cb f => exact ⟨hs, rfl⟩
  | start => exact absurd rfl ha
  | stop => exact ⟨lifecycle_stop_ne_active keep c.state, rfl⟩
  | rx data =>
    cases hst : c.state with
    | Active => exact absurd hst hs
    | Constructed => simp [Channel.step, hst]
    | Stopped => simp [Channel.step, hst]
  | fault e =>
    cases hst : c.state with
    | Active => exact absurd hst hs
    | Constructed => simp [Channel.step, hst]
    | Stopped => simp [Channel.step, hst]

theorem run_quiet_of_not_active (keep : Bool) (mid : List (Call R E)) (c : Channel R E)
    (hs : c.state ≠ Lifecycle.Active) (hm : Call.start ∉ mid) :
    (Channel.run keep mid c).2 = [] := by
  induction mid generalizing c with
  | nil => rfl
  | cons a cs ih =>
    have ha : a ≠ Call.start := fun h => hm (by simp [h])
    have hcs : Call.start ∉ cs := fun h => hm (List.mem_cons_of_mem _ h)
    obtain ⟨h1, h2⟩ := step_quiet_of_not_active keep a c hs ha
    simp [Channel.run, h2, ih _ h1 hcs]

theorem channel_run_append (keep : Bool) (xs ys : List (Call R E)) (c : Channel R E) :
    Channel.run keep (xs ++ ys) c =
      ((Channel.run keep ys (Channel.run keep xs c).1).1,
        (Channel.run keep xs c).2 ++ (Channel.run keep ys (Channel.run keep xs c).1).2) := by
  induction xs generalizing c with
  | nil => simp [Channel.run]
  | cons a xs ih => simp [Channel.run, ih, List.append_assoc]

theorem last_read_arg_none_of_all_empty (cs : List (SetCall R E))
    (h : ∀ f, SetCall.read f ∈ cs → f = none) :
    (last_read_arg cs).getD none = none := by
  cases hl : last_read_arg cs with
  | none => rfl
  | some f =>
    have hmem : f ∈ cs.filterMap SetCall.read_arg := List.mem_of_getLast?_eq_some hl
    obtain ⟨c, hc, hcf⟩ := List.mem_filterMap.mp hmem
    cases c with
    | read g =>
      simp only [SetCall.read_arg, Option.some.injEq] at hcf
      subst hcf
      simpa using h g hc
    | error g => simp [SetCall.read_arg] at hcf

theorem last_error_arg_none_of_all_empty (cs : List (SetCall R E))
    (h : ∀ f, SetCall.error f ∈ cs → f = none) :
    (last_error_arg cs).getD none = none := by
  cases hl : last_error_arg cs with
  | none => rfl
  | some f =>
    have hmem : f ∈ cs.filterMap SetCall.error_arg := List.mem_of_getLast?_eq_some hl
    obtain ⟨c, hc, hcf⟩ := List.mem_filterMap.mp hmem
    cases c with
    | read g => simp [SetCall.error_arg] at hcf
    | error g =>
      simp only [SetCall.error_arg, Option.some.injEq] at hcf
      subst hcf
      simpa using h g hc

theorem last_read_arg_skip_errors (pre : List (SetCall R E)) (f : std_function R)
    (post : List (std_function E)) :
    last_read_arg (pre ++ SetCall.read f :: post.map SetCall.error) = some f := by
  have h : (post.map (SetCall.error : std_function E → SetCall R E)).filterMap
      SetCall.read_arg = [] := by
    induction post with
    | nil => rfl
    | cons g gs ih => simp [List.filterMap_cons, SetCall.read_arg]
  simp [last_read_arg, List.filterMap_append, List.filterMap_cons, SetCall.read_arg, h]

theorem last_error_arg_skip_reads (pre : List (SetCall R E)) (f : std_function E)
    (post : List (std_function R)) :
    last_error_arg (pre ++ SetCall.error f :: post.map SetCall.read) = some f := by
  have h : (post.map (SetCall.read : std_function R → SetCall R E)).filterMap
      SetCall.error_arg = [] := by
    induction post with
    | nil => rfl
    | cons g gs ih => simp [List.filterMap_cons, SetCall.error_arg]
  simp [last_error_arg, List.filterMap_append, List.filterMap_cons, SetCall.error_arg, h]

/-! ## The setters -/

/-- Claim C1: for every Terminal state and every callback `f` (empty or not), after the
base `set_read_cb(f)` the read slot holds exactly `f`; the callback held before is
discarded: the resulting object is the same whatever the read slot held before the call. -/
theorem set_read_cb_stores (t : Terminal R E) (f : std_function R) :
    (t.set_read_cb f).on_read = f ∧
    ∀ g : std_function R,
      Terminal.set_read_cb f ({ t with on_read := g } : Terminal R E) = t.set_read_cb f :=
  ⟨rfl, fun _ => rfl⟩

/-- Claim C2: for every Terminal state and every callback `f`, after `set_error_cb(f)` the
error slot holds exactly `f`, replacing the callback held before: the resulting object is
the same whatever the error slot held before the call.  The operation is `void`: its only
result is the new object state. -/
theorem set_error_cb_stores (t : Terminal R E) (f : std_function E) :
    (t.set_error_cb f).on_error = f ∧
    ∀ g : std_function E,
      Terminal.set_error_cb f ({ t with on_error := g } : Terminal R E) = t.set_error_cb f :=
  ⟨rfl, fun _ => rfl⟩

/-- Claim C3: last write wins, without chaining.  For every starting state and every finite
sequence of setter calls, the final read slot holds the argument of the last `set_read_cb`
of the sequence (the starting read callback if there is none), and the final error slot
holds the argument of the last `set_error_cb` (the starting error callback if there is
none).  A notification sent through the slots afterwards invokes that callback and no
other.  In particular a `set_read_cb(f)` followed only by `set_error_cb` calls leaves `f`
in the read slot whatever was registered before it, and symmetrically for the error slot. -/
theorem last_write_wins (t : Terminal R E) (cs : List (SetCall R E)) :
    (Terminal.run_calls cs t).on_read = (last_read_arg cs).getD t.on_read ∧
    (Terminal.run_calls cs t).on_error = (last_error_arg cs).getD t.on_error ∧
    (∀ data : List Nat,
      (Terminal.run_calls cs t).notify_read data =
        match (last_read_arg cs).getD t.on_read with
        | none => []
        | some f => [Invocation.read f data data.length]) ∧
    (∀ e : terminal_error,
      (Terminal.run_calls cs t).notify_error e =
        match (last_error_arg cs).getD t.on_error with
        | none => []
        | some f => [Invocation.error f e]) ∧
    (∀ (f : std_function R) (post : List (std_function E)),
      (Terminal.run_calls (cs ++ SetCall.read f :: post.map SetCall.error) t).on_read = f) ∧
    (∀ (f : std_function E) (post : List (std_function R)),
      (Terminal.run_calls (cs ++ SetCall.error f :: post.map SetCall.read) t).on_error = f) := by
  refine ⟨run_calls_on_read cs t, run_calls_on_error cs t, ?_, ?_, ?_, ?_⟩
  · intro data
    simp only [Terminal.notify_read, run_calls_on_read]
  · intro e
    simp only [Terminal.notify_error, run_calls_on_error]
  · intro f post
    rw [run_calls_on_read, last_read_arg_skip_errors]
    rfl
  · intro f post
    rw [run_calls_on_error, last_error_arg_skip_reads]
    rfl

/-- Claim C4, as amended: `terminal_error` declares exactly four enumerators,
`BUFFER_OVERFLOW`, `CHECKSUM_ERROR`, `UNEXPECTED_CONTROL_FLOW` and `DEVICE_GONE`, with the
underlying integers 0, 1, 2 and 3; no two of them are equal; and a `terminal_error` value
is one of the four exactly when its underlying integer lies in 0..3. -/
theorem terminal_error_enumerators :
    terminal_error.BUFFER_OVERFLOW.underlying = 0 ∧
    terminal_error.CHECKSUM_ERROR.underlying = 1 ∧
    terminal_error.UNEXPECTED_CONTROL_FLOW.underlying = 2 ∧
    terminal_error.DEVICE_GONE.underlying = 3 ∧
    [terminal_error.BUFFER_OVERFLOW, terminal_error.CHECKSUM_ERROR,
      terminal_error.UNEXPECTED_CONTROL_FLOW, terminal_error.DEVICE_GONE].Nodup ∧
    Function.Injective terminal_error.underlying ∧
    (∀ e : terminal_error,
      (e = terminal_error.BUFFER_OVERFLOW ∨ e = terminal_error.CHECKSUM_ERROR ∨
        e = terminal_error.UNEXPECTED_CONTROL_FLOW ∨ e = terminal_error.DEVICE_GONE) ↔
      (0 ≤ e.underlying ∧ e.underlying ≤ 3)) := by
  refine ⟨rfl, rfl, rfl, rfl, by decide, ?_, ?_⟩
  · intro a b h
    cases a
    cases b
    simp only [terminal_error.mk.injEq]
    exact h
  · intro e
    obtain ⟨u, hu⟩ := e
    simp only [terminal_error.BUFFER_OVERFLOW, terminal_error.CHECKSUM_ERROR,
      terminal_error.UNEXPECTED_CONTROL_FLOW, terminal_error.DEVICE_GONE,
      terminal_error.mk.injEq]
    omega

/-- The enumeration is not closed: `static_cast<terminal_error>(4)` is a value of the type
that equals none of the four enumerators, so not every value that can be passed to the
error callback is one of them; a notification through the slot passes it to the registered
callback unchanged. -/
theorem terminal_error_not_closed :
    terminal_error.static_cast 4 (by decide) ≠ terminal_error.BUFFER_OVERFLOW ∧
    terminal_error.static_cast 4 (by decide) ≠ terminal_error.CHECKSUM_ERROR ∧
    terminal_error.static_cast 4 (by decide) ≠ terminal_error.UNEXPECTED_CONTROL_FLOW ∧
    terminal_error.static_cast 4 (by decide) ≠ terminal_error.DEVICE_GONE ∧
    (¬ ∀ e : terminal_error,
      e = terminal_error.BUFFER_OVERFLOW ∨ e = terminal_error.CHECKSUM_ERROR ∨
      e = terminal_error.UNEXPECTED_CONTROL_FLOW ∨ e = terminal_error.DEVICE_GONE) ∧
    Terminal.notify_error ({ on_read := none, on_error := some 7 } : Terminal Nat Nat)
        (terminal_error.static_cast 4 (by decide)) =
      [Invocation.error 7 (terminal_error.static_cast 4 (by decide))] := by
  refine ⟨by decide, by decide, by decide, by decide, ?_, rfl⟩
  intro h
  have h4 := h (terminal_error.static_cast 4 (by decide))
  revert h4
  decide

/-- Claim C9: frame property of the two setters.  `set_error_cb` leaves the read slot
unchanged, the base `set_read_cb` leaves the error slot unchanged, and the two setters
commute: either order of `set_error_cb(f)` and `set_read_cb(g)` yields the same state. -/
theorem setters_frame_and_commute (t : Terminal R E) (f : std_function E)
    (g : std_function R) :
    (t.set_error_cb f).on_read = t.on_read ∧
    (t.set_read_cb g).on_error = t.on_error ∧
    (t.set_read_cb g).set_error_cb f = (t.set_error_cb f).set_read_cb g :=
  ⟨rfl, rfl, rfl⟩

/-- Claim C10: a freshly constructed Terminal holds no callbacks: both slots are empty.
Each slot stays empty through every sequence of setter calls in which the corresponding
setter is called with empty callbacks only (calls of the other setter do not matter). -/
theorem fresh_holds_no_callbacks (cs : List (SetCall R E)) :
    (Terminal.fresh : Terminal R E).on_read = none ∧
    (Terminal.fresh : Terminal R E).on_error = none ∧
    ((∀ f, SetCall.read f ∈ cs → f = none) →
      (Terminal.run_calls cs (Terminal.fresh : Terminal R E)).on_read = none) ∧
    ((∀ f, SetCall.error f ∈ cs → f = none) →
      (Terminal.run_calls cs (Terminal.fresh : Terminal R E)).on_error = none) := by
  refine ⟨rfl, rfl, ?_, ?_⟩
  · intro h
    rw [run_calls_on_read]
    exact last_read_arg_none_of_all_empty cs h
  · intro h
    rw [run_calls_on_error]
    exact last_error_arg_none_of_all_empty cs h

/-- A concrete instance of the statement on fresh terminals: the read slot stays empty
through `set_error_cb(3); set_read_cb(empty)`, and the error slot stays empty through
`set_read_cb(1); set_error_cb(empty)`. -/
theorem fresh_holds_no_callbacks_witness :
    (∀ f, SetCall.read f ∈ [SetCall.error (some 3), (SetCall.read none : SetCall Nat Nat)] →
      f = none) ∧
    (Terminal.run_calls [SetCall.error (some 3), SetCall.read none]
      (Terminal.fresh : Terminal Nat Nat)).on_read = none ∧
    (∀ f, SetCall.error f ∈ [SetCall.read (some 1), (SetCall.error none : SetCall Nat Nat)] →
      f = none) ∧
    (Terminal.run_calls [SetCall.read (some 1), SetCall.error none]
      (Terminal.fresh : Terminal Nat Nat)).on_error = none :=
  have h1 : ∀ f, SetCall.read f ∈
      [SetCall.error (some 3), (SetCall.read none : SetCall Nat Nat)] → f = none := by
    intro f hf
    simpa using hf
  have h2 : ∀ f, SetCall.error f ∈
      [SetCall.read (some 1), (SetCall.error none : SetCall Nat Nat)] → f = none := by
    intro f hf
    simpa using hf
  ⟨h1, (fresh_holds_no_callbacks _).2.2.1 h1, h2, (fresh_holds_no_callbacks _).2.2.2 h2⟩

/-! ## Lifecycle -/

/-- Claim C5: callback registration is allowed in every lifecycle state and never fails.
For each of the states Constructed, Active and Stopped and for every callback, including
the empty one, `set_error_cb` and `set_read_cb` are total (they have no error result),
store their argument and leave the lifecycle state unchanged; as steps of a variant they
begin no callback invocation. -/
theorem registration_in_any_state (keep : Bool) (s : Lifecycle) (t : Terminal R E)
    (f : std_function E) (g : std_function R) :
    (Channel.set_error_cb f { base := t, state := s }).state = s ∧
    (Channel.set_error_cb f { base := t, state := s }).base.on_error = f ∧
    (Channel.set_read_cb g { base := t, state := s }).state = s ∧
    (Channel.set_read_cb g { base := t, state := s }).base.on_read = g ∧
    (Channel.set_error_cb (none : std_function E) { base := t, state := s }).state = s ∧
    (Channel.set_read_cb (none : std_function R) { base := t, state := s }).state = s ∧
    Channel.step keep (Call.set_error_cb f) { base := t, state := s } =
      ({ base := t.set_error_cb f, state := s }, []) ∧
    Channel.step keep (Call.set_read_cb g) { base := t, state := s } =
      ({ base := t.set_read_cb g, state := s }, []) :=
  ⟨rfl, rfl, rfl, rfl, rfl, rfl, rfl, rfl⟩

/-- Claim C6: after `stop()` returns, no invocation of the read callback or of the error
callback begins until `start()` is called again, whatever transport events are injected in
between.  For every variant state, every history `pre`, and every continuation `mid` that
contains no `start()` (it may contain received data, faults, registrations and further
`stop()` calls), the invocations begun over `pre`, `stop()`, `mid` are exactly those begun
over `pre`. -/
theorem no_invocation_after_stop (keep : Bool) (c : Channel R E) (pre mid : List (Call R E))
    (h : Call.start ∉ mid) :
    (Channel.run keep (pre ++ Call.stop :: mid) c).2 = (Channel.run keep pre c).2 := by
  rw [channel_run_append]
  have hq : (Channel.run keep mid (Channel.stop keep (Channel.run keep pre c).1)).2 = [] :=
    run_quiet_of_not_active keep mid _ (lifecycle_stop_ne_active keep _) h
  simp only [Channel.run, Channel.step, List.nil_append, hq, List.append_nil]

/-- A concrete run: on an active variant with callbacks 1 and 2, one chunk is received,
then `stop()` is called, then data, a fault, a new registration and more data are injected;
the only invocation is the one made before `stop()`. -/
theorem no_invocation_after_stop_witness :
    Call.start ∉ ([Call.rx [1, 2], Call.fault terminal_error.DEVICE_GONE,
      Call.set_read_cb (some 5), Call.rx [3]] : List (Call Nat Nat)) ∧
    (Channel.run false
      ([Call.rx [7]] ++ Call.stop :: [Call.rx [1, 2], Call.fault terminal_error.DEVICE_GONE,
        Call.set_read_cb (some 5), Call.rx [3]])
      ({ base := { on_read := some 1, on_error := some 2 }, state := Lifecycle.Active } :
        Channel Nat Nat)).2 = [Invocation.read 1 [7] 1] :=
  ⟨by decide,
    (no_invocation_after_stop false _ [Call.rx [7]] _ (by decide)).trans rfl⟩

/-- Claim C7: the lifecycle state machine over {Constructed, Active, Stopped}.  For every
finite sequence of `start()` and `stop()` calls on a freshly constructed Terminal, the
Terminal is Active exactly when the sequence is non-empty and its last call is `start()`.
In particular `start()` on an Active terminal leaves it Active, `stop()` on a Stopped
terminal leaves it Stopped, and `start()` after `stop()` gives Active from every state. -/
theorem lifecycle_active_iff_last_start (keep : Bool) (cs : List LifecycleCall) :
    (Lifecycle.run keep cs Lifecycle.Constructed = Lifecycle.Active ↔
      (cs ≠ [] ∧ cs.getLast? = some LifecycleCall.start)) ∧
    Lifecycle.start Lifecycle.Active = Lifecycle.Active ∧
    Lifecycle.stop keep Lifecycle.Stopped = Lifecycle.Stopped ∧
    (∀ s : Lifecycle, Lifecycle.start (Lifecycle.stop keep s) = Lifecycle.Active) := by
  refine ⟨?_, rfl, rfl, fun _ => rfl⟩
  induction cs using List.reverseRecOn with
  | nil => simp [Lifecycle.run]
  | append_singleton cs c _ =>
    rw [lifecycle_run_concat]
    cases c with
    | start => simp [LifecycleCall.apply, Lifecycle.start]
    | stop =>
      simp [LifecycleCall.apply, lifecycle_stop_ne_active]

/-! ## Sending -/

/-- Claim C8: for every buffer and every length `len`, `write(data, len)` returns an integer
`r` that is either negative (a definitive send failure) or satisfies `0 ≤ r ≤ len`, and `r`
is the number of bytes accepted: the transport has taken the first `r` bytes of `data` (none
when `r` is negative).  Against a transport that accepts at most 4 bytes per attempt,
`write(data, 10)` returns 4. -/
theorem write_returns_accepted_count (tr : Transport) (data : List Nat) (len : Nat) :
    ((tr.write data len).1 < 0 ∨
      (0 ≤ (tr.write data len).1 ∧ (tr.write data len).1 ≤ (len : Int))) ∧
    (tr.write data len).2.wire = tr.wire ++ data.take (tr.write data len).1.toNat ∧
    ((tr.write data len).1 < 0 ↔ tr.failure.isSome = true) ∧
    (∀ wire : List Nat,
      (Transport.write { chunk := 4, failure := none, wire := wire } data 10).1 = 4) := by
  refine ⟨?_, ?_, ?_, fun _ => rfl⟩
  · cases hf : tr.failure with
    | some k =>
      left
      simp only [Transport.write, hf]
      exact Int.negSucc_lt_zero k
    | none =>
      right
      simp only [Transport.write, hf]
      omega
  · cases hf : tr.failure with
    | some k => simp [Transport.write, hf, Int.toNat]
    | none => simp only [Transport.write, hf, Int.toNat_ofNat]
  · cases hf : tr.failure with
    | some k =>
      simp only [Transport.write, hf, Option.isSome_some, iff_true]
      exact Int.negSucc_lt_zero k
    | none =>
      simp only [Transport.write, hf, Option.isSome_none, Bool.false_eq_true, iff_false]
      omega

end esp_modem
